import Mathlib

/-!
# Verification of the fiddler-auditor LLM evaluation engine

Shallow embedding of `src/auditor/evaluation/generative.py` (class `LLMEval`).

The engine orchestrates three external collaborators:
  * a generation client (`self.llm`, a callable from input text to completion),
  * a perturbation provider (`PerturbText.paraphrase`),
  * a behavior checker (`self.expected_behavior.check`).

Collaborators are modelled as fields of the `LLMEval` structure: fallible
calls return `Except String α` (an `Except.error` models a raised Python
exception, carried unchanged by re-raising).  Every collaborator invocation
made by the engine is recorded as an `Event` in an explicit trace, so that
claims about which calls are (or are not) made can be stated and proved.
-/

namespace Auditor

/-- Evaluation type enumeration (`LLMEvalType` from `auditor.utils.data`):
robustness or correctness. -/
inductive LLMEvalType where
  | robustness
  | correctness
deriving DecidableEq, Repr

/-- One collaborator invocation performed by the engine.

* `genCall input` — the generation client was called with assembled `input`;
* `paraphraseCall texts count temperature` — the perturbation provider was
  asked for `count` paraphrases per text of the batch `texts` at the given
  diversity `temperature`;
* `checkCall ref gens` — the behavior checker was invoked with reference
  generation `ref` and candidate generations `gens`. -/
inductive Event where
  | genCall (input : String)
  | paraphraseCall (texts : List String) (count : Nat) (temperature : Rat)
  | checkCall (ref : String) (gens : List String)
deriving DecidableEq, Repr

/-- The evaluation result record (`LLMEvalResult` from `auditor.utils.data`),
with exactly the fields populated by the constructor call in
`LLMEval._evaluate_generations`.  `generation_kwargs` is an association list
in insertion order (a Python `dict` preserves insertion order). -/
structure LLMEvalResult where
  original_prompt : String
  pre_context : Option String
  post_context : Option String
  reference_generation : String
  perturbed_prompts : List String
  perturbed_generations : List String
  generation_kwargs : List (String × String)
  result : List Bool
  metric : List Rat
  expected_behavior_desc : String
  evaluation_type : LLMEvalType
deriving DecidableEq, Repr

/-- The evaluator state (`LLMEval.__init__` stores `llm` and
`expected_behavior`).  The collaborators are opaque at the engine boundary:

* `llm` — the langchain `BaseLLM` as a callable, `input ↦ completion`, an
  `Except.error` modelling a raised provider exception;
* `llmType`, `temperature`, `modelName` — the optional attributes
  `_llm_type`, `temperature`, `model_name` of the llm object probed by
  `hasattr` in `_get_generation_details` (`none` = attribute absent);
* `paraphrase` — modelled from the spec: `PerturbText.paraphrase` (module
  `auditor.perturbations.text`, not part of the evaluated source) returns,
  per the PerturbationProvider contract, an ordered sequence of ordered
  sequences of strings, outer index per input text, inner index 0 the
  original text and indices 1..count the paraphrases; arguments are the
  batch of texts, the perturbations-per-sample count and the temperature;
* `check` — modelled from the spec: `SimilarGeneration.check` (module
  `auditor.evaluation.expected_behavior`, not part of the evaluated source)
  returns one (pass, score) pair per candidate generation; `descriptor` is
  its human-readable behavior description. -/
structure LLMEval where
  llm : String → Except String String
  llmType : Option String
  temperature : Option String
  modelName : Option String
  paraphrase : List String → Nat → Rat → Except String (List (List String))
  check : String → List String → Except String (List (Bool × Rat))
  descriptor : String

namespace LLMEval

/-- `LLMEval.construct_llm_input`: assemble optional pre-context, the core
prompt and optional post-context with a delimiter (the source's default
delimiter is `" "`; every caller in the source uses the default). -/
def construct_llm_input (prompt : String) (pre_context : Option String)
    (post_context : Option String) (delimiter : String) : String :=
  let full_prompt :=
    match pre_context with
    | some pre => pre ++ delimiter ++ prompt
    | none => prompt
  match post_context with
  | some post => full_prompt ++ delimiter ++ post
  | none => full_prompt

/-- `LLMEval._get_generation`: assemble the input and call the model; a
raised error is logged and re-raised unchanged (hence the error value is
propagated as-is).  Returns the outcome together with the trace of the one
generation-client call made. -/
def get_generation (self : LLMEval) (prompt : String)
    (pre_context : Option String) (post_context : Option String) :
    Except String String × List Event :=
  let llm_input := construct_llm_input prompt pre_context post_context " "
  (self.llm llm_input, [Event.genCall llm_input])

/-- `LLMEval.generate_alternative_prompts`: build a `PerturbText` over the
single-element batch `[prompt]`, paraphrase at the given temperature, and
take the row of the one input (`perturbed_dataset.data[0]`; an empty outer
list would raise `IndexError` in Python, modelled as an error).  With
`return_original` the full row is returned, otherwise the row without its
first element (`[1:]`). -/
def generate_alternative_prompts (self : LLMEval) (prompt : String)
    (perturbations_per_sample : Nat) (temperature : Rat)
    (return_original : Bool) :
    Except String (List String) × List Event :=
  let ev := Event.paraphraseCall [prompt] perturbations_per_sample temperature
  match self.paraphrase [prompt] perturbations_per_sample temperature with
  | .error e => (.error e, [ev])
  | .ok [] => (.error "IndexError", [ev])
  | .ok (row :: _) =>
      if return_original then (.ok row, [ev])
      else (.ok (row.drop 1), [ev])

/-- `LLMEval._get_generation_details`: best-effort introspection of the llm
object; each entry is added exactly when `hasattr` finds the attribute. -/
def get_generation_details (self : LLMEval) : List (String × String) :=
  (match self.llmType with
   | some v => [("Provider", v)]
   | none => []) ++
  (match self.temperature with
   | some v => [("Temperature", v)]
   | none => []) ++
  (match self.modelName with
   | some v => [("Model Name", v)]
   | none => [])

/-- Lines 70–79 of `_evaluate_generations`: the reference generation is
fetched from the model exactly when the caller did not supply one. -/
def resolve_reference (self : LLMEval) (prompt : String)
    (pre_context : Option String) (post_context : Option String) :
    Option String → Except String String × List Event
  | some r => (.ok r, [])
  | none => self.get_generation prompt pre_context post_context

/-- Lines 81–85 of `_evaluate_generations`: alternative prompt
perturbations are generated (temperature and `return_original` left at
their defaults `0.0` and `False`) exactly when the caller did not supply
them. -/
def resolve_perturbations (self : LLMEval) (prompt : String)
    (perturbations_per_sample : Nat) :
    Option (List String) → Except String (List String) × List Event
  | some ps => (.ok ps, [])
  | none =>
      self.generate_alternative_prompts prompt perturbations_per_sample 0 false

/-- Lines 93–100 of `_evaluate_generations`: fetch a generation for each
prompt in order; the first raised error aborts the loop and propagates. -/
def fetch_generations (self : LLMEval) (pre_context : Option String)
    (post_context : Option String) :
    List String → Except String (List String) × List Event
  | [] => (.ok [], [])
  | p :: rest =>
      let (r, ev) := self.get_generation p pre_context post_context
      match r with
      | .error e => (.error e, ev)
      | .ok g =>
          let (rs, evs) := self.fetch_generations pre_context post_context rest
          match rs with
          | .error e => (.error e, ev ++ evs)
          | .ok gs => (.ok (g :: gs), ev ++ evs)

/-- `LLMEval._evaluate_generations`: resolve the reference generation,
resolve the candidate perturbations, include the original prompt first in
correctness mode, fetch a generation per evaluated prompt, run the behavior
check and package the result.  Any collaborator error aborts the call and
propagates unchanged; the trace records the collaborator calls made. -/
def evaluate_generations (self : LLMEval) (prompt : String)
    (evaluation_type : LLMEvalType) (perturbations_per_sample : Nat)
    (pre_context : Option String) (post_context : Option String)
    (reference_generation : Option String)
    (prompt_perturbations : Option (List String)) :
    Except String LLMEvalResult × List Event :=
  let (refR, refEv) :=
    self.resolve_reference prompt pre_context post_context
      reference_generation
  match refR with
  | .error e => (.error e, refEv)
  | .ok ref =>
    let (pertR, pertEv) :=
      self.resolve_perturbations prompt perturbations_per_sample
        prompt_perturbations
    match pertR with
    | .error e => (.error e, refEv ++ pertEv)
    | .ok prompt_perturbations =>
      let evaluate_prompts :=
        if evaluation_type = LLMEvalType.correctness then
          prompt :: prompt_perturbations
        else
          prompt_perturbations
      let (gensR, genEv) :=
        self.fetch_generations pre_context post_context evaluate_prompts
      match gensR with
      | .error e => (.error e, refEv ++ pertEv ++ genEv)
      | .ok alternative_generations =>
        let checkEv := [Event.checkCall ref alternative_generations]
        match self.check ref alternative_generations with
        | .error e => (.error e, refEv ++ pertEv ++ genEv ++ checkEv)
        | .ok metric =>
            (.ok { original_prompt := prompt
                   pre_context := pre_context
                   post_context := post_context
                   reference_generation := ref
                   perturbed_prompts := evaluate_prompts
                   perturbed_generations := alternative_generations
                   generation_kwargs := self.get_generation_details
                   result := metric.map Prod.fst
                   metric := metric.map Prod.snd
                   expected_behavior_desc := self.descriptor
                   evaluation_type := evaluation_type },
             refEv ++ pertEv ++ genEv ++ checkEv)

/-- `LLMEval.evaluate_prompt_robustness`: fixes robustness mode and passes
`reference_generation=None`. -/
def evaluate_prompt_robustness (self : LLMEval) (prompt : String)
    (perturbations_per_sample : Nat) (pre_context : Option String)
    (post_context : Option String)
    (prompt_perturbations : Option (List String)) :
    Except String LLMEvalResult × List Event :=
  self.evaluate_generations prompt LLMEvalType.robustness
    perturbations_per_sample pre_context post_context none
    prompt_perturbations

/-- `LLMEval.evaluate_prompt_correctness`: fixes correctness mode and
passes the caller's `reference_generation`. -/
def evaluate_prompt_correctness (self : LLMEval) (prompt : String)
    (reference_generation : String) (perturbations_per_sample : Nat)
    (pre_context : Option String) (post_context : Option String)
    (alternative_prompts : Option (List String)) :
    Except String LLMEvalResult × List Event :=
  self.evaluate_generations prompt LLMEvalType.correctness
    perturbations_per_sample pre_context post_context
    (some reference_generation) alternative_prompts

end LLMEval

/-- A concrete evaluator with total collaborators, used to instantiate the
theorems on closed inputs. -/
def wenv : LLMEval where
  llm := fun s => .ok ("G:" ++ s)
  llmType := some "openai"
  temperature := some "0.0"
  modelName := some "gpt"
  paraphrase := fun ts n _ =>
    .ok (ts.map fun t => t :: List.replicate n (t ++ "?"))
  check := fun _ gens => .ok (gens.map fun _ => (true, 1))
  descriptor := "similar"

/-- A concrete evaluator whose generation client fails on the inputs `"p"`
and `"b"`, used to instantiate the fail-fast theorems. -/
def fenv : LLMEval :=
  { wenv with
      llm := fun s => if s = "b" || s = "p" then .error "boom"
                      else .ok ("G:" ++ s) }

/-- A concrete evaluator whose generation client fails only on the input
`"b"`: its reference fetch succeeds, so it exercises a candidate-fetch
failure in a run whose reference is fetched from the model. -/
def fenv2 : LLMEval :=
  { wenv with
      llm := fun s => if s = "b" then .error "boom" else .ok ("G:" ++ s) }

/-- The result of the canonical correctness run of `wenv` on prompt `"p"`
with reference `"r"` and supplied candidates `["a", "b"]`. -/
def wres : LLMEvalResult where
  original_prompt := "p"
  pre_context := none
  post_context := none
  reference_generation := "r"
  perturbed_prompts := ["p", "a", "b"]
  perturbed_generations := ["G:p", "G:a", "G:b"]
  generation_kwargs :=
    [("Provider", "openai"), ("Temperature", "0.0"), ("Model Name", "gpt")]
  result := [true, true, true]
  metric := [1, 1, 1]
  expected_behavior_desc := "similar"
  evaluation_type := LLMEvalType.correctness

/-- The trace of the canonical correctness run of `wenv`. -/
def wtr : List Event :=
  [Event.genCall "p", Event.genCall "a", Event.genCall "b",
   Event.checkCall "r" ["G:p", "G:a", "G:b"]]

/-- The result of the canonical robustness run of `wenv` on prompt `"p"`
with supplied candidates `["a"]`. -/
def wres2 : LLMEvalResult where
  original_prompt := "p"
  pre_context := none
  post_context := none
  reference_generation := "G:p"
  perturbed_prompts := ["a"]
  perturbed_generations := ["G:a"]
  generation_kwargs :=
    [("Provider", "openai"), ("Temperature", "0.0"), ("Model Name", "gpt")]
  result := [true]
  metric := [1]
  expected_behavior_desc := "similar"
  evaluation_type := LLMEvalType.robustness

/-- The trace of the canonical robustness run of `wenv`. -/
def wtr2 : List Event :=
  [Event.genCall "p", Event.genCall "a", Event.checkCall "G:p" ["G:a"]]

/-- The result of the robustness run of `wenv` on prompt `"p"` with
pre-context `"C"`, post-context `"E"`, supplied reference `"r"` and
candidates `["a"]`. -/
def wres3 : LLMEvalResult where
  original_prompt := "p"
  pre_context := some "C"
  post_context := some "E"
  reference_generation := "r"
  perturbed_prompts := ["a"]
  perturbed_generations := ["G:C a E"]
  generation_kwargs :=
    [("Provider", "openai"), ("Temperature", "0.0"), ("Model Name", "gpt")]
  result := [true]
  metric := [1]
  expected_behavior_desc := "similar"
  evaluation_type := LLMEvalType.robustness

/-- The trace of the contextual robustness run of `wenv`. -/
def wtr3 : List Event :=
  [Event.genCall "C a E", Event.checkCall "r" ["G:C a E"]]

/-- The result of the auto-generation robustness run of `wenv` on prompt
`"p"` with supplied reference `"r"` and one perturbation per sample. -/
def wres4 : LLMEvalResult where
  original_prompt := "p"
  pre_context := none
  post_context := none
  reference_generation := "r"
  perturbed_prompts := ["p?"]
  perturbed_generations := ["G:p?"]
  generation_kwargs :=
    [("Provider", "openai"), ("Temperature", "0.0"), ("Model Name", "gpt")]
  result := [true]
  metric := [1]
  expected_behavior_desc := "similar"
  evaluation_type := LLMEvalType.robustness

/-- The trace of the auto-generation robustness run of `wenv`. -/
def wtr4 : List Event :=
  [Event.paraphraseCall ["p"] 1 0, Event.genCall "p?",
   Event.checkCall "r" ["G:p?"]]

/-- The result of the auto-generation correctness run of `wenv` on prompt
`"p"` with caller reference `"r"` and one perturbation per sample. -/
def wres5 : LLMEvalResult where
  original_prompt := "p"
  pre_context := none
  post_context := none
  reference_generation := "r"
  perturbed_prompts := ["p", "p?"]
  perturbed_generations := ["G:p", "G:p?"]
  generation_kwargs :=
    [("Provider", "openai"), ("Temperature", "0.0"), ("Model Name", "gpt")]
  result := [true, true]
  metric := [1, 1]
  expected_behavior_desc := "similar"
  evaluation_type := LLMEvalType.correctness

/-- The trace of the auto-generation correctness run of `wenv`. -/
def wtr5 : List Event :=
  [Event.paraphraseCall ["p"] 1 0, Event.genCall "p", Event.genCall "p?",
   Event.checkCall "r" ["G:p", "G:p?"]]

namespace LLMEval

/-- A successful `fetch_generations` returns one generation per prompt in
order: the trace is exactly one generation-client call per prompt on its
assembled input, and each output is the client's completion for the
corresponding assembled input. -/
theorem fetch_generations_ok (self : LLMEval) (pre post : Option String) :
    ∀ (ps gs : List String) (tr : List Event),
      self.fetch_generations pre post ps = (.ok gs, tr) →
      gs.length = ps.length ∧
      tr = ps.map (fun p => Event.genCall (construct_llm_input p pre post " ")) ∧
      ∀ i (h : i < ps.length) (h2 : i < gs.length),
        self.llm (construct_llm_input (ps.get ⟨i, h⟩) pre post " ") =
          .ok (gs.get ⟨i, h2⟩) := by
  intro ps
  induction ps with
  | nil =>
      intro gs tr h
      simp only [fetch_generations, Prod.mk.injEq, Except.ok.injEq] at h
      obtain ⟨h1, h2⟩ := h
      subst h1; subst h2
      exact ⟨rfl, rfl, fun i h _ => absurd h (by simp)⟩
  | cons p rest ih =>
      intro gs tr h
      simp only [fetch_generations, get_generation] at h
      cases hllm : self.llm (construct_llm_input p pre post " ") with
      | error e => simp [hllm] at h
      | ok g =>
          rw [hllm] at h
          rcases hrest : self.fetch_generations pre post rest with ⟨rs, evs⟩
          rw [hrest] at h
          cases rs with
          | error e => simp at h
          | ok gs' =>
              simp only [Prod.mk.injEq, Except.ok.injEq] at h
              obtain ⟨h1, h2⟩ := h
              subst h1; subst h2
              obtain ⟨hlen, htr, hnth⟩ := ih gs' evs hrest
              refine ⟨by simp [hlen], by simp [htr], ?_⟩
              intro i hi hi2
              cases i with
              | zero => simpa using hllm
              | succ j =>
                  simpa using hnth j (by simpa using hi) (by simpa using hi2)

/-- If each of the first `n` prompts succeeds and the `n`-th fails with `e`,
`fetch_generations` propagates `e` and its trace holds exactly the calls on
the first `n + 1` assembled prompts: nothing past the failing prompt is
attempted. -/
theorem fetch_generations_fail (self : LLMEval) (pre post : Option String) :
    ∀ (ps : List String) (n : Nat) (hn : n < ps.length) (e : String),
      (∀ j (hj : j < n),
        ∃ g, self.llm (construct_llm_input (ps.get ⟨j, hj.trans hn⟩) pre post " ") =
          .ok g) →
      self.llm (construct_llm_input (ps.get ⟨n, hn⟩) pre post " ") = .error e →
      self.fetch_generations pre post ps =
        (.error e,
         (ps.take (n + 1)).map
           (fun p => Event.genCall (construct_llm_input p pre post " "))) := by
  intro ps
  induction ps with
  | nil => intro n hn; simp at hn
  | cons p rest ih =>
      intro n hn e hpre hfail
      cases n with
      | zero =>
          simp only [List.get] at hfail
          simp [fetch_generations, get_generation, hfail]
      | succ m =>
          obtain ⟨g, hg⟩ := hpre 0 (Nat.succ_pos m)
          simp only [List.get] at hg
          have hm : m < rest.length := by simpa using hn
          have ihm := ih m hm e
            (fun j hj => by simpa using hpre (j + 1) (by omega))
            (by simpa using hfail)
          simp [fetch_generations, get_generation, hg, ihm]

/-- Every event a `fetch_generations` call records is a generation-client
call on an input assembled with the given contexts. -/
theorem fetch_generations_trace_shape (self : LLMEval)
    (pre post : Option String) :
    ∀ (ps : List String) (r : Except String (List String)) (tr : List Event),
      self.fetch_generations pre post ps = (r, tr) →
      ∀ ev ∈ tr, ∃ q, ev = Event.genCall (construct_llm_input q pre post " ") := by
  intro ps
  induction ps with
  | nil =>
      intro r tr h
      simp only [fetch_generations, Prod.mk.injEq] at h
      obtain ⟨_, h2⟩ := h
      subst h2; simp
  | cons p rest ih =>
      intro r tr h
      simp only [fetch_generations, get_generation] at h
      cases hllm : self.llm (construct_llm_input p pre post " ") with
      | error e =>
          rw [hllm] at h
          obtain ⟨_, h2⟩ := Prod.mk.injEq .. ▸ h
          subst h2
          intro ev hev
          simp at hev
          exact ⟨p, hev⟩
      | ok g =>
          rw [hllm] at h
          rcases hrest : self.fetch_generations pre post rest with ⟨rs, evs⟩
          rw [hrest] at h
          have hevs := ih rs evs hrest
          cases rs with
          | error e =>
              obtain ⟨_, h2⟩ := Prod.mk.injEq .. ▸ h
              subst h2
              intro ev hev
              rcases List.mem_append.mp hev with h3 | h3
              · simp at h3; exact ⟨p, h3⟩
              · exact hevs ev h3
          | ok gs' =>
              obtain ⟨_, h2⟩ := Prod.mk.injEq .. ▸ h
              subst h2
              intro ev hev
              rcases List.mem_append.mp hev with h3 | h3
              · simp at h3; exact ⟨p, h3⟩
              · exact hevs ev h3

/-- A successful reference resolution either took the caller's value (no
collaborator call) or fetched the model's completion for the assembled
original prompt with exactly one generation-client call. -/
theorem resolve_reference_ok (self : LLMEval) (prompt : String)
    (pre post : Option String) (refg : Option String) (ref : String)
    (refEv : List Event)
    (h : self.resolve_reference prompt pre post refg = (.ok ref, refEv)) :
    (refg = some ref ∧ refEv = []) ∨
    (refg = none ∧
      self.llm (construct_llm_input prompt pre post " ") = .ok ref ∧
      refEv = [Event.genCall (construct_llm_input prompt pre post " ")]) := by
  cases refg with
  | some r =>
      simp only [resolve_reference, Prod.mk.injEq, Except.ok.injEq] at h
      exact Or.inl ⟨by rw [h.1], h.2.symm⟩
  | none =>
      simp only [resolve_reference, get_generation, Prod.mk.injEq] at h
      exact Or.inr ⟨rfl, h.1, h.2.symm⟩

/-- The trace of a reference resolution is empty or a single
generation-client call on the assembled original prompt. -/
theorem resolve_reference_trace_shape (self : LLMEval) (prompt : String)
    (pre post : Option String) (refg : Option String)
    (r : Except String String) (tr : List Event)
    (h : self.resolve_reference prompt pre post refg = (r, tr)) :
    tr = [] ∨ tr = [Event.genCall (construct_llm_input prompt pre post " ")] := by
  cases refg with
  | some v =>
      simp only [resolve_reference, Prod.mk.injEq] at h
      exact Or.inl h.2.symm
  | none =>
      simp only [resolve_reference, get_generation, Prod.mk.injEq] at h
      exact Or.inr h.2.symm

/-- Supplied perturbations are taken verbatim with no collaborator call. -/
theorem resolve_perturbations_some (self : LLMEval) (prompt : String)
    (pps : Nat) (ps : List String) :
    self.resolve_perturbations prompt pps (some ps) = (.ok ps, []) := rfl

/-- The trace of a perturbation resolution is empty (candidates supplied)
or a single paraphrase call on the one-element batch of the original prompt
at temperature `0`; the latter arises only on the auto-generation path. -/
theorem resolve_perturbations_trace_shape (self : LLMEval) (prompt : String)
    (pps : Nat) (perts : Option (List String))
    (r : Except String (List String)) (tr : List Event)
    (h : self.resolve_perturbations prompt pps perts = (r, tr)) :
    tr = [] ∨
    (perts = none ∧ tr = [Event.paraphraseCall [prompt] pps 0]) := by
  cases perts with
  | some ps =>
      simp only [resolve_perturbations, Prod.mk.injEq] at h
      exact Or.inl h.2.symm
  | none =>
      refine Or.inr ⟨rfl, ?_⟩
      simp only [resolve_perturbations, generate_alternative_prompts] at h
      rcases hp : self.paraphrase [prompt] pps 0 with e | data <;> rw [hp] at h
      · exact (Prod.mk.injEq .. ▸ h).2.symm
      · cases data with
        | nil => exact (Prod.mk.injEq .. ▸ h).2.symm
        | cons row _ =>
            cases hro : (false : Bool) <;> simp at h <;> exact h.2.symm

/-- Elimination principle for a successful evaluation: the reference, the
candidates, the per-prompt generations and the checker verdicts all resolved
in order, the result record is built from them, and the trace is the
concatenation of the collaborator calls in that order.  The evaluated
prompt list is the candidates, with the original prompt prepended exactly
in correctness mode. -/
theorem evaluate_generations_ok (self : LLMEval) (prompt : String)
    (ety : LLMEvalType) (pps : Nat) (pre post refg : Option String)
    (perts : Option (List String)) (res : LLMEvalResult) (tr : List Event)
    (h : self.evaluate_generations prompt ety pps pre post refg perts =
      (.ok res, tr)) :
    ∃ ref refEv cands pertEv gens genEv ms,
      self.resolve_reference prompt pre post refg = (.ok ref, refEv) ∧
      self.resolve_perturbations prompt pps perts = (.ok cands, pertEv) ∧
      self.fetch_generations pre post
          (if ety = LLMEvalType.correctness then prompt :: cands else cands) =
        (.ok gens, genEv) ∧
      self.check ref gens = .ok ms ∧
      res = { original_prompt := prompt
              pre_context := pre
              post_context := post
              reference_generation := ref
              perturbed_prompts :=
                if ety = LLMEvalType.correctness then prompt :: cands else cands
              perturbed_generations := gens
              generation_kwargs := self.get_generation_details
              result := ms.map Prod.fst
              metric := ms.map Prod.snd
              expected_behavior_desc := self.descriptor
              evaluation_type := ety } ∧
      tr = refEv ++ pertEv ++ genEv ++ [Event.checkCall ref gens] := by
  simp only [evaluate_generations] at h
  rcases hr : self.resolve_reference prompt pre post refg with ⟨refR, refEv⟩
  rw [hr] at h
  cases refR with
  | error e => simp at h
  | ok ref =>
      rcases hp : self.resolve_perturbations prompt pps perts with ⟨pertR, pertEv⟩
      rw [hp] at h
      cases pertR with
      | error e => simp at h
      | ok cands =>
          dsimp only at h
          rcases hf : self.fetch_generations pre post
              (if ety = LLMEvalType.correctness then prompt :: cands else cands)
            with ⟨gensR, genEv⟩
          rw [hf] at h
          cases gensR with
          | error e => simp at h
          | ok gens =>
              dsimp only at h
              cases hc : self.check ref gens with
              | error e => rw [hc] at h; simp at h
              | ok ms =>
                  rw [hc] at h
                  simp only [Prod.mk.injEq, Except.ok.injEq] at h
                  exact ⟨ref, refEv, cands, pertEv, gens, genEv, ms,
                    rfl, rfl, hf, hc, h.1.symm, h.2.symm⟩

/-- The perturbation generator records exactly one paraphrase call: a
one-element batch holding the prompt, at the requested count and
temperature, whatever the provider returns. -/
theorem generate_alternative_prompts_trace (self : LLMEval) (prompt : String)
    (pps : Nat) (t : Rat) (ro : Bool) :
    (self.generate_alternative_prompts prompt pps t ro).2 =
      [Event.paraphraseCall [prompt] pps t] := by
  simp only [generate_alternative_prompts]
  rcases self.paraphrase [prompt] pps t with e | data
  · rfl
  · cases data with
    | nil => rfl
    | cons row rest => cases ro <;> rfl

/-- Every event in the trace of an evaluation is a generation-client call
on an input assembled with the call's contexts, a paraphrase call on the
one-element batch of the original prompt at temperature `0` (possible only
when no candidate prompts were supplied), or a behavior-checker call. -/
theorem evaluate_generations_trace_shape (self : LLMEval) (prompt : String)
    (ety : LLMEvalType) (pps : Nat) (pre post refg : Option String)
    (perts : Option (List String)) (r : Except String LLMEvalResult)
    (tr : List Event)
    (h : self.evaluate_generations prompt ety pps pre post refg perts =
      (r, tr)) :
    ∀ ev ∈ tr,
      (∃ q, ev = Event.genCall (construct_llm_input q pre post " ")) ∨
      (perts = none ∧ ev = Event.paraphraseCall [prompt] pps 0) ∨
      ∃ rf gens, ev = Event.checkCall rf gens := by
  simp only [evaluate_generations] at h
  rcases hr : self.resolve_reference prompt pre post refg with ⟨refR, refEv⟩
  rw [hr] at h
  have refMem : ∀ ev ∈ refEv,
      ∃ q, ev = Event.genCall (construct_llm_input q pre post " ") := by
    rcases resolve_reference_trace_shape self prompt pre post refg refR refEv hr
      with h1 | h1 <;> subst h1 <;> intro ev hev <;> simp at hev
    exact ⟨prompt, hev⟩
  cases refR with
  | error e =>
      obtain ⟨_, h2⟩ := Prod.mk.injEq .. ▸ h
      subst h2
      intro ev hev
      exact Or.inl (refMem ev hev)
  | ok ref =>
      rcases hp : self.resolve_perturbations prompt pps perts with ⟨pertR, pertEv⟩
      rw [hp] at h
      have pertMem : ∀ ev ∈ pertEv,
          perts = none ∧ ev = Event.paraphraseCall [prompt] pps 0 := by
        rcases resolve_perturbations_trace_shape self prompt pps perts pertR
            pertEv hp with h1 | ⟨h1, h2⟩
        · subst h1; intro ev hev; simp at hev
        · subst h2; intro ev hev; simp at hev; exact ⟨h1, hev⟩
      cases pertR with
      | error e =>
          obtain ⟨_, h2⟩ := Prod.mk.injEq .. ▸ h
          subst h2
          intro ev hev
          rcases List.mem_append.mp hev with h3 | h3
          · exact Or.inl (refMem ev h3)
          · exact Or.inr (Or.inl (pertMem ev h3))
      | ok cands =>
          dsimp only at h
          rcases hf : self.fetch_generations pre post
              (if ety = LLMEvalType.correctness then prompt :: cands else cands)
            with ⟨gensR, genEv⟩
          rw [hf] at h
          have genMem := fetch_generations_trace_shape self pre post _ gensR genEv hf
          cases gensR with
          | error e =>
              obtain ⟨_, h2⟩ := Prod.mk.injEq .. ▸ h
              subst h2
              intro ev hev
              rcases List.mem_append.mp hev with h3 | h3
              · rcases List.mem_append.mp h3 with h4 | h4
                · exact Or.inl (refMem ev h4)
                · exact Or.inr (Or.inl (pertMem ev h4))
              · exact Or.inl (genMem ev h3)
          | ok gens =>
              dsimp only at h
              have hend : tr = refEv ++ pertEv ++ genEv ++
                  [Event.checkCall ref gens] := by
                cases hc : self.check ref gens <;> rw [hc] at h <;>
                  exact (Prod.mk.injEq .. ▸ h).2.symm
              subst hend
              intro ev hev
              rcases List.mem_append.mp hev with h3 | h3
              · rcases List.mem_append.mp h3 with h4 | h4
                · rcases List.mem_append.mp h4 with h5 | h5
                  · exact Or.inl (refMem ev h5)
                  · exact Or.inr (Or.inl (pertMem ev h5))
                · exact Or.inl (genMem ev h4)
              · simp at h3
                exact Or.inr (Or.inr ⟨ref, gens, h3⟩)

/-- Whenever the reference resolves and no candidate prompts were supplied,
the trace contains the paraphrase call on the one-element batch of the
original prompt at temperature `0`. -/
theorem evaluate_generations_paraphrase_called (self : LLMEval)
    (prompt : String) (ety : LLMEvalType) (pps : Nat)
    (pre post refg : Option String) (ref : String) (refEv : List Event)
    (r : Except String LLMEvalResult) (tr : List Event)
    (hr : self.resolve_reference prompt pre post refg = (.ok ref, refEv))
    (h : self.evaluate_generations prompt ety pps pre post refg none =
      (r, tr)) :
    Event.paraphraseCall [prompt] pps 0 ∈ tr := by
  simp only [evaluate_generations] at h
  rw [hr] at h
  dsimp only at h
  rcases hp : self.resolve_perturbations prompt pps none with ⟨pertR, pertEv⟩
  rw [hp] at h
  have hpe : pertEv = [Event.paraphraseCall [prompt] pps 0] := by
    have := generate_alternative_prompts_trace self prompt pps 0 false
    have h2 : (self.resolve_perturbations prompt pps none).2 = pertEv := by
      rw [hp]
    rw [resolve_perturbations] at h2
    rw [this] at h2
    exact h2.symm
  have hmem : Event.paraphraseCall [prompt] pps 0 ∈ pertEv := by
    rw [hpe]; simp
  cases pertR with
  | error e =>
      obtain ⟨_, h2⟩ := Prod.mk.injEq .. ▸ h
      subst h2
      exact List.mem_append.mpr (Or.inr hmem)
  | ok cands =>
      dsimp only at h
      rcases hf : self.fetch_generations pre post
          (if ety = LLMEvalType.correctness then prompt :: cands else cands)
        with ⟨gensR, genEv⟩
      rw [hf] at h
      cases gensR with
      | error e =>
          obtain ⟨_, h2⟩ := Prod.mk.injEq .. ▸ h
          subst h2
          exact List.mem_append.mpr
            (Or.inl (List.mem_append.mpr (Or.inr hmem)))
      | ok gens =>
          dsimp only at h
          have hend : Event.paraphraseCall [prompt] pps 0 ∈
              refEv ++ pertEv ++ genEv ++ [Event.checkCall ref gens] :=
            List.mem_append.mpr (Or.inl (List.mem_append.mpr
              (Or.inl (List.mem_append.mpr (Or.inr hmem)))))
          cases hc : self.check ref gens <;> rw [hc] at h <;>
            exact ((Prod.mk.injEq .. ▸ h).2 ▸ hend)

/-- C6: prompt assembly is a pure deterministic function of its inputs: with
no contexts it returns the prompt unchanged; a present pre-context is
prepended followed by the delimiter; a present post-context is appended
after the delimiter; with both present the result is pre-context, delimiter,
prompt, delimiter, post-context. -/
theorem claim_C6 (p d pre post : String) :
    construct_llm_input p none none d = p ∧
    construct_llm_input p (some pre) none d = pre ++ d ++ p ∧
    construct_llm_input p none (some post) d = p ++ d ++ post ∧
    construct_llm_input p (some pre) (some post) d =
      pre ++ d ++ p ++ d ++ post :=
  ⟨rfl, rfl, rfl, rfl⟩

/-- C1: for every successful evaluation whose candidate prompts resolved to
`cands`, the evaluated prompt list is `prompt :: cands` in correctness mode
(original first, candidates after it in order) and exactly `cands` in
robustness mode (the engine adds nothing). -/
theorem claim_C1 (self : LLMEval) (prompt : String) (ety : LLMEvalType)
    (pps : Nat) (pre post refg : Option String) (perts : Option (List String))
    (cands : List String) (pertEv : List Event) (res : LLMEvalResult)
    (tr : List Event)
    (hc : self.resolve_perturbations prompt pps perts = (.ok cands, pertEv))
    (h : self.evaluate_generations prompt ety pps pre post refg perts =
      (.ok res, tr)) :
    res.perturbed_prompts =
      if ety = LLMEvalType.correctness then prompt :: cands else cands := by
  obtain ⟨ref, refEv, cands2, pertEv2, gens, genEv, ms, hr, hp, hf, hchk,
    hres, htr⟩ := evaluate_generations_ok self prompt ety pps pre post refg
      perts res tr h
  have h2 := hc.symm.trans hp
  obtain ⟨h1, _⟩ := Prod.mk.injEq .. ▸ h2
  obtain rfl := Except.ok.inj h1
  rw [hres]

/-- Witness for C1: the correctness run of `wenv` on prompt `"p"` with
supplied candidates `["a", "b"]` lists `"p"` first and the candidates after
it. -/
theorem claim_C1_wit :
    wenv.resolve_perturbations "p" 5 (some ["a", "b"]) = (.ok ["a", "b"], []) ∧
    wenv.evaluate_generations "p" LLMEvalType.correctness 5 none none
        (some "r") (some ["a", "b"]) = (.ok wres, wtr) ∧
    wres.perturbed_prompts =
      (if LLMEvalType.correctness = LLMEvalType.correctness
       then "p" :: ["a", "b"] else ["a", "b"]) :=
  ⟨rfl, rfl,
   claim_C1 wenv "p" LLMEvalType.correctness 5 none none (some "r")
     (some ["a", "b"]) ["a", "b"] [] wres wtr rfl rfl⟩

/-- C8: assuming the provider honors its contract (inner index 0 is the
original prompt, indices 1..count the paraphrases), the generator returns
exactly `perturbations_per_sample` alternatives, or
`perturbations_per_sample + 1` with the original first when
`return_original` is set. -/
theorem claim_C8 (self : LLMEval) (prompt : String) (pps : Nat) (t : Rat)
    (paras : List String)
    (hcontract : self.paraphrase [prompt] pps t = .ok [prompt :: paras])
    (hlen : paras.length = pps) :
    (self.generate_alternative_prompts prompt pps t false).1 = .ok paras ∧
    paras.length = pps ∧
    (self.generate_alternative_prompts prompt pps t true).1 =
      .ok (prompt :: paras) ∧
    (prompt :: paras).length = pps + 1 := by
  refine ⟨?_, hlen, ?_, by simp [hlen]⟩ <;>
    simp [generate_alternative_prompts, hcontract]

/-- Witness for C8 at `wenv`, two perturbations per sample. -/
theorem claim_C8_wit :
    wenv.paraphrase ["p"] 2 0 = .ok [("p" :: ["p?", "p?"])] ∧
    (["p?", "p?"] : List String).length = 2 ∧
    ((wenv.generate_alternative_prompts "p" 2 0 false).1 = .ok ["p?", "p?"] ∧
     (["p?", "p?"] : List String).length = 2 ∧
     (wenv.generate_alternative_prompts "p" 2 0 true).1 =
       .ok ("p" :: ["p?", "p?"]) ∧
     ("p" :: ["p?", "p?"] : List String).length = 2 + 1) :=
  ⟨rfl, rfl, claim_C8 wenv "p" 2 0 ["p?", "p?"] rfl rfl⟩

/-- C9: metadata extraction yields the provider, temperature and model-name
entries exactly when the client exposes the corresponding attribute; absent
attributes are omitted (and the extraction is a total function — it never
raises). -/
theorem claim_C9 (self : LLMEval) (v : String) :
    (("Provider", v) ∈ self.get_generation_details ↔
      self.llmType = some v) ∧
    (("Temperature", v) ∈ self.get_generation_details ↔
      self.temperature = some v) ∧
    (("Model Name", v) ∈ self.get_generation_details ↔
      self.modelName = some v) := by
  rcases self with ⟨llm, lt, tp, mn, pf, ck, d⟩
  rcases lt with _ | a <;> rcases tp with _ | b <;> rcases mn with _ | c <;>
    simp [get_generation_details, eq_comm]

/-- C2: assuming the checker returns one (pass, score) pair per candidate
generation, a successful result has prompts, generations, pass flags and
scores of equal length, and the generation at index `i` is the client's
completion for the assembled prompt at index `i`, in input order. -/
theorem claim_C2 (self : LLMEval) (prompt : String) (ety : LLMEvalType)
    (pps : Nat) (pre post refg : Option String) (perts : Option (List String))
    (res : LLMEvalResult) (tr : List Event)
    (hcheck : ∀ ref gens ms, self.check ref gens = .ok ms →
      ms.length = gens.length)
    (h : self.evaluate_generations prompt ety pps pre post refg perts =
      (.ok res, tr)) :
    res.perturbed_generations.length = res.perturbed_prompts.length ∧
    res.result.length = res.perturbed_prompts.length ∧
    res.metric.length = res.perturbed_prompts.length ∧
    ∀ i (h1 : i < res.perturbed_prompts.length)
      (h2 : i < res.perturbed_generations.length),
      self.llm (construct_llm_input (res.perturbed_prompts.get ⟨i, h1⟩)
        pre post " ") = .ok (res.perturbed_generations.get ⟨i, h2⟩) := by
  obtain ⟨ref, refEv, cands, pertEv, gens, genEv, ms, hr, hp, hf, hchk,
    hres, htr⟩ := evaluate_generations_ok self prompt ety pps pre post refg
      perts res tr h
  obtain ⟨hlen, _, hnth⟩ := fetch_generations_ok self pre post _ gens genEv hf
  have hms := hcheck ref gens ms hchk
  subst hres
  exact ⟨hlen, by rw [List.length_map, hms, hlen],
    by rw [List.length_map, hms, hlen], hnth⟩

/-- Witness for C2: the checker contract holds for `wenv`, and the
correctness run's parallel arrays line up as the theorem states. -/
theorem claim_C2_wit :
    (∀ ref gens ms, wenv.check ref gens = .ok ms →
      ms.length = gens.length) ∧
    (wres.perturbed_generations.length = wres.perturbed_prompts.length ∧
     wres.result.length = wres.perturbed_prompts.length ∧
     wres.metric.length = wres.perturbed_prompts.length ∧
     ∀ i (h1 : i < wres.perturbed_prompts.length)
       (h2 : i < wres.perturbed_generations.length),
       wenv.llm (LLMEval.construct_llm_input (wres.perturbed_prompts.get ⟨i, h1⟩)
         none none " ") = .ok (wres.perturbed_generations.get ⟨i, h2⟩)) :=
  ⟨fun ref gens ms h => by cases h; simp,
   claim_C2 wenv "p" LLMEvalType.correctness 5 none none (some "r")
     (some ["a", "b"]) wres wtr
     (fun ref gens ms h => by cases h; simp) rfl⟩

/-- C4: `evaluate_prompt_robustness` passes no caller reference — its call
is by definition the shared pipeline with `reference_generation = None` —
and on success the reference generation in the result is the client's
completion for the assembled original prompt, fetched by the run's first
generation-client call. -/
theorem claim_C4 (self : LLMEval) (prompt : String) (pps : Nat)
    (pre post : Option String) (perts : Option (List String))
    (res : LLMEvalResult) (tr : List Event) :
    (self.evaluate_prompt_robustness prompt pps pre post perts =
      self.evaluate_generations prompt LLMEvalType.robustness pps pre post
        none perts) ∧
    (self.evaluate_prompt_robustness prompt pps pre post perts =
        (.ok res, tr) →
      self.llm (construct_llm_input prompt pre post " ") =
        .ok res.reference_generation ∧
      tr.head? =
        some (Event.genCall (construct_llm_input prompt pre post " "))) := by
  refine ⟨rfl, fun h => ?_⟩
  replace h : self.evaluate_generations prompt LLMEvalType.robustness pps
      pre post none perts = (.ok res, tr) := h
  obtain ⟨ref, refEv, cands, pertEv, gens, genEv, ms, hr, hp, hf, hchk,
    hres, htr⟩ := evaluate_generations_ok self prompt LLMEvalType.robustness
      pps pre post none perts res tr h
  rcases resolve_reference_ok self prompt pre post none ref refEv hr with
    ⟨h1, _⟩ | ⟨_, h2, h3⟩
  · exact Option.noConfusion h1
  · subst hres
    refine ⟨h2, ?_⟩
    subst htr
    subst h3
    rfl

/-- Witness for C4 at the robustness run of `wenv` with candidates
`["a"]`. -/
theorem claim_C4_wit :
    (wenv.evaluate_prompt_robustness "p" 5 none none (some ["a"]) =
      wenv.evaluate_generations "p" LLMEvalType.robustness 5 none none none
        (some ["a"])) ∧
    (wenv.llm (LLMEval.construct_llm_input "p" none none " ") =
      .ok wres2.reference_generation ∧
     wtr2.head? =
       some (Event.genCall (LLMEval.construct_llm_input "p" none none " "))) :=
  ⟨(claim_C4 wenv "p" 5 none none (some ["a"]) wres2 wtr2).1,
   (claim_C4 wenv "p" 5 none none (some ["a"]) wres2 wtr2).2 rfl⟩

/-- C5: supplying candidate prompts suppresses the paraphrase collaborator
entirely and makes `perturbations_per_sample` irrelevant, in both modes,
with the supplied prompts used verbatim and in the given order (in
correctness mode after the original, in robustness mode as the whole
evaluated list, fetched in that order); and every
`evaluate_prompt_correctness` call — candidates supplied or not — uses the
caller's reference as-is, its trace holding the optional paraphrase call,
exactly one generation-client call per evaluated prompt, and the checker
call: no reference-generation model call. -/
theorem claim_C5 (self : LLMEval) (prompt refg : String) (pps pps2 : Nat)
    (pre post : Option String) (cands : List String) (res : LLMEvalResult)
    (tr : List Event) (res2 : LLMEvalResult) (tr2 : List Event) :
    (self.evaluate_prompt_robustness prompt pps pre post (some cands) =
      self.evaluate_prompt_robustness prompt pps2 pre post (some cands)) ∧
    (self.evaluate_prompt_correctness prompt refg pps pre post (some cands) =
      self.evaluate_prompt_correctness prompt refg pps2 pre post
        (some cands)) ∧
    (∀ r trx,
      (self.evaluate_prompt_robustness prompt pps pre post (some cands) =
          (r, trx) ∨
        self.evaluate_prompt_correctness prompt refg pps pre post
          (some cands) = (r, trx)) →
      ∀ ts c t, Event.paraphraseCall ts c t ∉ trx) ∧
    (self.evaluate_prompt_correctness prompt refg pps pre post (some cands) =
        (.ok res, tr) →
      res.reference_generation = refg ∧
      res.perturbed_prompts = prompt :: cands ∧
      tr = (prompt :: cands).map
          (fun q => Event.genCall (construct_llm_input q pre post " ")) ++
        [Event.checkCall refg res.perturbed_generations]) ∧
    (self.evaluate_prompt_robustness prompt pps pre post (some cands) =
        (.ok res2, tr2) →
      res2.perturbed_prompts = cands ∧
      tr2 = Event.genCall (construct_llm_input prompt pre post " ") ::
        (cands.map
           (fun q => Event.genCall (construct_llm_input q pre post " ")) ++
         [Event.checkCall res2.reference_generation
           res2.perturbed_generations])) ∧
    (∀ (perts2 : Option (List String)) (res3 : LLMEvalResult)
      (tr3 : List Event),
      self.evaluate_prompt_correctness prompt refg pps pre post perts2 =
          (.ok res3, tr3) →
      res3.reference_generation = refg ∧
      tr3 = (if perts2 = none then [Event.paraphraseCall [prompt] pps 0]
             else []) ++
        res3.perturbed_prompts.map
          (fun q => Event.genCall (construct_llm_input q pre post " ")) ++
        [Event.checkCall refg res3.perturbed_generations]) := by
  refine ⟨rfl, rfl, ?_, ?_, ?_, ?_⟩
  · intro r trx hcase ts c t hmem
    have hshape : (∃ q, Event.paraphraseCall ts c t =
          Event.genCall (construct_llm_input q pre post " ")) ∨
        ((some cands : Option (List String)) = none ∧
          Event.paraphraseCall ts c t = Event.paraphraseCall [prompt] pps 0) ∨
        ∃ rf gens, Event.paraphraseCall ts c t = Event.checkCall rf gens := by
      rcases hcase with h | h
      · exact evaluate_generations_trace_shape self prompt
          LLMEvalType.robustness pps pre post none (some cands) r trx h _ hmem
      · exact evaluate_generations_trace_shape self prompt
          LLMEvalType.correctness pps pre post (some refg) (some cands) r trx
          h _ hmem
    rcases hshape with ⟨q, hq⟩ | ⟨hq, _⟩ | ⟨rf, gens, hq⟩
    · exact Event.noConfusion hq
    · exact Option.noConfusion hq
    · exact Event.noConfusion hq
  · intro h
    replace h : self.evaluate_generations prompt LLMEvalType.correctness pps
        pre post (some refg) (some cands) = (.ok res, tr) := h
    obtain ⟨ref, refEv, cands2, pertEv, gens, genEv, ms, hr, hp, hf, hchk,
      hres, htr⟩ := evaluate_generations_ok self prompt
        LLMEvalType.correctness pps pre post (some refg) (some cands) res tr h
    obtain ⟨hc1, hc2⟩ := Prod.mk.injEq .. ▸ hr
    obtain rfl := Except.ok.inj hc1
    obtain ⟨hp1, hp2⟩ := Prod.mk.injEq .. ▸ hp
    obtain rfl := Except.ok.inj hp1
    obtain ⟨hlen, htr2, _⟩ := fetch_generations_ok self pre post _ gens genEv hf
    subst hres
    refine ⟨rfl, by simp, ?_⟩
    subst htr
    rw [← hc2, ← hp2, htr2]
    simp
  · intro h
    replace h : self.evaluate_generations prompt LLMEvalType.robustness pps
        pre post none (some cands) = (.ok res2, tr2) := h
    obtain ⟨ref, refEv, cands2, pertEv, gens, genEv, ms, hr, hp, hf, hchk,
      hres, htr⟩ := evaluate_generations_ok self prompt
        LLMEvalType.robustness pps pre post none (some cands) res2 tr2 h
    obtain ⟨hp1, hp2⟩ := Prod.mk.injEq .. ▸ hp
    obtain rfl := Except.ok.inj hp1
    rcases resolve_reference_ok self prompt pre post none ref refEv hr with
      ⟨h1, _⟩ | ⟨_, h2, h3⟩
    · exact Option.noConfusion h1
    · obtain ⟨hlen, htr2, _⟩ :=
        fetch_generations_ok self pre post _ gens genEv hf
      subst hres
      refine ⟨by simp, ?_⟩
      subst htr
      subst h3
      rw [← hp2, htr2]
      simp
  · intro perts2 res3 tr3 h
    replace h : self.evaluate_generations prompt LLMEvalType.correctness pps
        pre post (some refg) perts2 = (.ok res3, tr3) := h
    obtain ⟨ref, refEv, cands2, pertEv, gens, genEv, ms, hr, hp, hf, hchk,
      hres, htr⟩ := evaluate_generations_ok self prompt
        LLMEvalType.correctness pps pre post (some refg) perts2 res3 tr3 h
    obtain ⟨hr1, hr2⟩ := Prod.mk.injEq .. ▸ hr
    obtain rfl := Except.ok.inj hr1
    obtain ⟨hlen, htr2, _⟩ := fetch_generations_ok self pre post _ gens genEv hf
    have hpe : pertEv = (if perts2 = none
        then [Event.paraphraseCall [prompt] pps 0] else []) := by
      cases perts2 with
      | some cs =>
          obtain ⟨_, hp2⟩ := Prod.mk.injEq .. ▸ hp
          simp [← hp2]
      | none =>
          have h2 := congrArg Prod.snd hp
          simp only [resolve_perturbations,
            generate_alternative_prompts_trace] at h2
          simp [← h2]
    subst hres
    refine ⟨rfl, ?_⟩
    subst htr
    rw [← hr2, hpe, htr2]
    simp

/-- Witness for C5: the correctness and robustness runs of `wenv` with
supplied candidates (the latter showing them used verbatim and in order),
at two perturbation counts, and the auto-generation correctness run with
one perturbation per sample (reference used as-is, no reference model
call). -/
theorem claim_C5_wit :
    (wenv.evaluate_prompt_correctness "p" "r" 5 none none (some ["a", "b"]) =
      wenv.evaluate_prompt_correctness "p" "r" 7 none none
        (some ["a", "b"])) ∧
    (wres.reference_generation = "r" ∧
     wres.perturbed_prompts = "p" :: ["a", "b"] ∧
     wtr = ("p" :: ["a", "b"]).map
         (fun q => Event.genCall (LLMEval.construct_llm_input q none none " ")) ++
       [Event.checkCall "r" wres.perturbed_generations]) ∧
    (wres2.perturbed_prompts = ["a"] ∧
     wtr2 = Event.genCall (LLMEval.construct_llm_input "p" none none " ") ::
       (["a"].map
          (fun q => Event.genCall (LLMEval.construct_llm_input q none none " ")) ++
        [Event.checkCall wres2.reference_generation
          wres2.perturbed_generations])) ∧
    (wres5.reference_generation = "r" ∧
     wtr5 = (if (none : Option (List String)) = none
             then [Event.paraphraseCall ["p"] 1 0] else []) ++
       wres5.perturbed_prompts.map
         (fun q => Event.genCall (LLMEval.construct_llm_input q none none " ")) ++
       [Event.checkCall "r" wres5.perturbed_generations]) :=
  ⟨(claim_C5 wenv "p" "r" 5 7 none none ["a", "b"] wres wtr wres2
      wtr2).2.1,
   (claim_C5 wenv "p" "r" 5 7 none none ["a", "b"] wres wtr wres2
      wtr2).2.2.2.1 rfl,
   (claim_C5 wenv "p" "r" 5 7 none none ["a"] wres wtr wres2
      wtr2).2.2.2.2.1 rfl,
   (claim_C5 wenv "p" "r" 1 7 none none ["a", "b"] wres wtr wres2
      wtr2).2.2.2.2.2 none wres5 wtr5 rfl⟩

/-- C3: fail-fast, as two independent cases.  First case: if the reference
fetch for the assembled original prompt raises, the same error propagates
unchanged, no result is constructed, and the trace holds only that one call
— no paraphrase call, no candidate fetch, no checker call.  Second case: in
any run whose reference and candidates resolved, if the fetch for the
`n`-th evaluated prompt raises after the earlier ones succeeded, the same
error propagates unchanged, no result is constructed, the trace holds
exactly the collaborator calls made up to and including the failing fetch —
no fetch for any later candidate is attempted — and the behavior checker is
never invoked. -/
theorem claim_C3 (self : LLMEval) (prompt : String) (ety : LLMEvalType)
    (pps : Nat) (pre post : Option String) (perts : Option (List String)) :
    (∀ e, self.llm (construct_llm_input prompt pre post " ") = .error e →
      self.evaluate_generations prompt ety pps pre post none perts =
        (.error e,
         [Event.genCall (construct_llm_input prompt pre post " ")]) ∧
      ∀ rf gens, Event.checkCall rf gens ∉
        ([Event.genCall (construct_llm_input prompt pre post " ")] :
          List Event)) ∧
    (∀ e (refg : Option String) (ref : String) (refEv : List Event)
      (cands : List String) (pertEv : List Event) (n : Nat)
      (hr : self.resolve_reference prompt pre post refg = (.ok ref, refEv))
      (hp : self.resolve_perturbations prompt pps perts = (.ok cands, pertEv))
      (hn : n < (if ety = LLMEvalType.correctness then prompt :: cands
                 else cands).length),
      (∀ j (hj : j < n), ∃ g,
        self.llm (construct_llm_input
          ((if ety = LLMEvalType.correctness then prompt :: cands
            else cands).get ⟨j, hj.trans hn⟩) pre post " ") = .ok g) →
      self.llm (construct_llm_input
        ((if ety = LLMEvalType.correctness then prompt :: cands
          else cands).get ⟨n, hn⟩) pre post " ") = .error e →
      self.evaluate_generations prompt ety pps pre post refg perts =
        (.error e,
         refEv ++ pertEv ++
           ((if ety = LLMEvalType.correctness then prompt :: cands
             else cands).take (n + 1)).map
             (fun p => Event.genCall (construct_llm_input p pre post " "))) ∧
      ∀ rf gens, Event.checkCall rf gens ∉
        refEv ++ pertEv ++
          ((if ety = LLMEvalType.correctness then prompt :: cands
            else cands).take (n + 1)).map
            (fun p => Event.genCall (construct_llm_input p pre post " "))) := by
  constructor
  · intro e h0
    constructor
    · simp only [evaluate_generations, resolve_reference, get_generation]
      rw [h0]
    · intro rf gens hmem
      simp at hmem
  · intro e refg ref refEv cands pertEv n hr hp hn hpre hfail
    constructor
    · have hfetch := fetch_generations_fail self pre post
        (if ety = LLMEvalType.correctness then prompt :: cands else cands)
        n hn e hpre hfail
      simp only [evaluate_generations]
      rw [hr]
      dsimp only
      rw [hp]
      dsimp only
      rw [hfetch]
    · intro rf gens hmem
      rcases List.mem_append.mp hmem with h3 | h3
      · rcases List.mem_append.mp h3 with h4 | h4
        · rcases resolve_reference_trace_shape self prompt pre post refg
              (.ok ref) refEv hr with h5 | h5 <;> subst h5 <;> simp at h4
        · rcases resolve_perturbations_trace_shape self prompt pps perts
              (.ok cands) pertEv hp with h5 | ⟨_, h5⟩ <;> subst h5 <;>
            simp at h4
      · obtain ⟨q, _, hq⟩ := List.mem_map.mp h3
        exact Event.noConfusion hq

/-- Witness for C3, exercising each case on its own run.  At `fenv` (client
fails on `"p"`) a robustness run with no caller reference aborts at the
reference fetch with a one-call trace.  At `fenv2` (client fails only on
`"b"`) a robustness run with no caller reference fetches its reference for
`"p"`, fetches candidate `"a"`, then aborts at candidate `"b"` with no
checker call. -/
theorem claim_C3_wit :
    fenv.llm (LLMEval.construct_llm_input "p" none none " ") =
      .error "boom" ∧
    (fenv.evaluate_generations "p" LLMEvalType.robustness 5 none none none
        (some ["a", "b"]) = (.error "boom", [Event.genCall "p"]) ∧
     ∀ rf gens, Event.checkCall rf gens ∉
       ([Event.genCall "p"] : List Event)) ∧
    fenv2.resolve_reference "p" none none none =
      (.ok "G:p", [Event.genCall "p"]) ∧
    fenv2.resolve_perturbations "p" 5 (some ["a", "b"]) =
      (.ok ["a", "b"], []) ∧
    (fenv2.evaluate_generations "p" LLMEvalType.robustness 5 none none none
        (some ["a", "b"]) =
      (.error "boom",
       [Event.genCall "p", Event.genCall "a", Event.genCall "b"]) ∧
     ∀ rf gens, Event.checkCall rf gens ∉
       ([Event.genCall "p", Event.genCall "a", Event.genCall "b"] :
         List Event)) := by
  have hpre : ∀ j (hj : j < 1), ∃ g,
      fenv2.llm (LLMEval.construct_llm_input
        ((if LLMEvalType.robustness = LLMEvalType.correctness
          then "p" :: ["a", "b"] else ["a", "b"]).get
          ⟨j, hj.trans (by decide)⟩) none none " ") = .ok g := by
    intro j hj
    have hj0 : j = 0 := by omega
    subst hj0
    exact ⟨"G:a", rfl⟩
  refine ⟨rfl, ?_, rfl, rfl, ?_⟩
  · exact (claim_C3 fenv "p" LLMEvalType.robustness 5 none none
      (some ["a", "b"])).1 "boom" rfl
  · exact (claim_C3 fenv2 "p" LLMEvalType.robustness 5 none none
      (some ["a", "b"])).2 "boom" none "G:p" [Event.genCall "p"] ["a", "b"]
      [] 1 rfl rfl (by decide) hpre rfl

/-- C7: with contexts supplied, every input the run sends to the generation
client carries them verbatim: it begins with the pre-context followed by
the delimiter and ends with the delimiter followed by the post-context
(each part alone when only one context is supplied). -/
theorem claim_C7 (self : LLMEval) (prompt : String) (ety : LLMEvalType)
    (pps : Nat) (refg : Option String) (perts : Option (List String))
    (pre post : String) (r : Except String LLMEvalResult) (tr : List Event)
    (s : String) :
    (self.evaluate_generations prompt ety pps (some pre) (some post) refg
        perts = (r, tr) →
      Event.genCall s ∈ tr →
      ∃ core, s = pre ++ " " ++ core ++ " " ++ post) ∧
    (self.evaluate_generations prompt ety pps (some pre) none refg perts =
        (r, tr) →
      Event.genCall s ∈ tr → ∃ core, s = pre ++ " " ++ core) ∧
    (self.evaluate_generations prompt ety pps none (some post) refg perts =
        (r, tr) →
      Event.genCall s ∈ tr → ∃ core, s = core ++ " " ++ post) := by
  refine ⟨fun h hmem => ?_, fun h hmem => ?_, fun h hmem => ?_⟩ <;>
    rcases evaluate_generations_trace_shape self prompt ety pps _ _ refg
        perts r tr h _ hmem with ⟨q, hq⟩ | ⟨_, hq⟩ | ⟨rf, gens, hq⟩ <;>
      first
        | exact ⟨q, Event.genCall.inj hq⟩
        | exact Event.noConfusion hq

/-- Witness for C7 at the contextual robustness run of `wenv`: the one
client input `"C a E"` carries pre-context `"C"` and post-context `"E"`
verbatim. -/
theorem claim_C7_wit :
    wenv.evaluate_generations "p" LLMEvalType.robustness 5 (some "C")
        (some "E") (some "r") (some ["a"]) = (.ok wres3, wtr3) ∧
    Event.genCall "C a E" ∈ wtr3 ∧
    (∃ core, "C a E" = "C" ++ " " ++ core ++ " " ++ "E") :=
  ⟨rfl, by decide,
   (claim_C7 wenv "p" LLMEvalType.robustness 5 (some "r") (some ["a"])
     "C" "E" (.ok wres3) wtr3 "C a E").1 rfl (by decide)⟩

/-- C10: on the auto-generation path (no candidate prompts supplied) every
paraphrase call in the trace is on the one-element batch holding exactly
the original prompt at temperature `0.0` — the engine never passes any
other batch or temperature — and once the reference resolves, that
paraphrase call is made. -/
theorem claim_C10 (self : LLMEval) (prompt : String) (ety : LLMEvalType)
    (pps : Nat) (pre post refg : Option String)
    (r : Except String LLMEvalResult) (tr : List Event) (ts : List String)
    (c : Nat) (t : Rat) :
    (self.evaluate_generations prompt ety pps pre post refg none = (r, tr) →
      Event.paraphraseCall ts c t ∈ tr →
      ts = [prompt] ∧ c = pps ∧ t = 0) ∧
    (∀ ref refEv,
      self.resolve_reference prompt pre post refg = (.ok ref, refEv) →
      self.evaluate_generations prompt ety pps pre post refg none = (r, tr) →
      Event.paraphraseCall [prompt] pps 0 ∈ tr) := by
  constructor
  · intro h hmem
    rcases evaluate_generations_trace_shape self prompt ety pps pre post refg
        none r tr h _ hmem with ⟨q, hq⟩ | ⟨_, hq⟩ | ⟨rf, gens, hq⟩
    · exact Event.noConfusion hq
    · obtain ⟨h1, h2, h3⟩ := Event.paraphraseCall.inj hq
      exact ⟨h1, h2, h3⟩
    · exact Event.noConfusion hq
  · intro ref refEv hr h
    exact evaluate_generations_paraphrase_called self prompt ety pps pre post
      refg ref refEv r tr hr h

/-- Witness for C10 at the auto-generation robustness run of `wenv` with
one perturbation per sample. -/
theorem claim_C10_wit :
    wenv.evaluate_generations "p" LLMEvalType.robustness 1 none none
        (some "r") none = (.ok wres4, wtr4) ∧
    Event.paraphraseCall ["p"] 1 0 ∈ wtr4 ∧
    ((["p"] : List String) = ["p"] ∧ 1 = 1 ∧ (0 : Rat) = 0) :=
  ⟨rfl,
   (claim_C10 wenv "p" LLMEvalType.robustness 1 none none (some "r")
     (.ok wres4) wtr4 ["p"] 1 0).2 "r" [] rfl rfl,
   (claim_C10 wenv "p" LLMEvalType.robustness 1 none none (some "r")
     (.ok wres4) wtr4 ["p"] 1 0).1 rfl (by decide)⟩

end LLMEval

end Auditor
